import Mathlib

/-!
Formal model of the `comfforts/logger` Go package.

The package provides a process-wide slog-based logging facade:
environment-driven default configuration (`defaultConfig`), functional
options (`WithLevel`, `WithFormat`, `WithWriter`, `WithAddSource`),
a handler builder (`build`), a `sync.Once`-guarded singleton
(`Init`, `GetSlogLogger`, `GetSlogFileLogger`, `GetSlogMultiLogger`),
rotating-file sink construction (`GetFileWriter`, `GetZapLogger`),
and a context carrier (`WithLogger`, `LoggerFromContext`).

Machine strings are modelled as Lean `String`s; Go's
`strings.ToLower(strings.TrimSpace(s))` is modelled character-wise by
`goNorm` (ASCII case folding, ASCII whitespace trimming), and
`filepath.Join` is modelled component-wise by `filepathJoin`
(split on the separator, clean `.`/`..`/empty components, re-join).
The mutable package-level singleton (`once`, `base`, `initErr`) is
modelled by explicit state passing over `SingletonState`, and the
`fmt.Println` diagnostic notices of the failure path are counted in
that state together with the channel they go to.
-/

set_option maxHeartbeats 1000000

/-- slog severity levels used by the package (`slog.LevelDebug` etc.). -/
inductive Level
  | debug
  | info
  | warn
  | error
  deriving DecidableEq

/-- Numeric value of a slog level (`slog.LevelDebug = -4`, ...). -/
def Level.toInt : Level → Int
  | .debug => -4
  | .info => 0
  | .warn => 4
  | .error => 8

/-- Output destinations that writes can physically reach. -/
inductive Sink
  | stdout
  | stderr
  | file (path : String)
  deriving DecidableEq

/-- An `io.Writer` value as the package constructs them: `os.Stdout`,
`io.Discard`, a `lumberjack.Logger` rotating file writer (with its
`Filename`, `MaxSize`, `MaxBackups`, `MaxAge`, `Compress` fields), or an
`io.MultiWriter` of two writers. -/
inductive LogWriter
  | stdout
  | discard
  | file (path : String) (maxSize maxBackups maxAge : Nat) (compress : Bool)
  | multi (w₁ w₂ : LogWriter)
  deriving DecidableEq

/-- Delivering one message to a writer: the list of sink/message pairs that
physically get written.  `io.Discard` writes nothing; `io.MultiWriter`
fans the write out to both destinations. -/
def writeTo : LogWriter → String → List (Sink × String)
  | .stdout, m => [(Sink.stdout, m)]
  | .discard, _ => []
  | .file p _ _ _ _, m => [(Sink.file p, m)]
  | .multi w₁ w₂, m => writeTo w₁ m ++ writeTo w₂ m

/-- Handler flavour selected by `build`: `slog.NewJSONHandler` (structured)
or `slog.NewTextHandler` (human-readable). -/
inductive HandlerKind
  | json
  | text
  deriving DecidableEq

/-- A constructed slog handler: flavour, destination writer, minimum level
and the `AddSource` flag (`slog.HandlerOptions`). -/
structure SlogHandler where
  kind : HandlerKind
  writer : LogWriter
  level : Level
  addSource : Bool
  deriving DecidableEq

/-- A `*slog.Logger` handle: its handler plus the attributes accumulated by
`Logger.With`. -/
structure SlogLogger where
  handler : SlogHandler
  attrs : List (String × String)
  deriving DecidableEq

/-- A logging call on a handle: the handler drops the record when the
severity is below its minimum level, otherwise the record goes to the
handler's writer. -/
def logAt (l : SlogLogger) (lvl : Level) (msg : String) : List (Sink × String) :=
  if l.handler.level.toInt ≤ lvl.toInt then writeTo l.handler.writer msg else []

/-- The `Config` struct of the package: level, format string
("json" or "text"), destination writer, and source-location flag. -/
structure Config where
  Level : Level
  Format : String
  Writer : LogWriter
  AddSource : Bool
  deriving DecidableEq

/-- The functional options of the package (`Option func(*Config)`);
only these four option constructors exist. -/
inductive Opt
  | WithLevel (l : Level)
  | WithFormat (f : String)
  | WithWriter (w : LogWriter)
  | WithAddSource (add : Bool)
  deriving DecidableEq

/-- Applying one option to a config (`opt(&cfg)`). -/
def applyOpt (c : Config) : Opt → Config
  | .WithLevel l => { c with Level := l }
  | .WithFormat f => { c with Format := f }
  | .WithWriter w => { c with Writer := w }
  | .WithAddSource a => { c with AddSource := a }

/-- A snapshot of the three environment variables the package reads:
`ENV`, `GO_ENV` (execution mode) and `INFRA` (infrastructure locality).
`none` models an unset variable. -/
structure Env where
  ENV : Option String
  GO_ENV : Option String
  INFRA : Option String
  deriving DecidableEq

/-- `os.Getenv`: an unset variable reads as the empty string. -/
def getenv (v : Option String) : String := v.getD ""

/-- ASCII whitespace, as trimmed by `strings.TrimSpace` on ASCII input. -/
def isSpaceChar (c : Char) : Bool :=
  c = ' ' ∨ c = '\t' ∨ c = '\n' ∨ c = '\r'

/-- Trim leading and trailing whitespace from a character list. -/
def trimSpaceList (l : List Char) : List Char :=
  ((l.dropWhile isSpaceChar).reverse.dropWhile isSpaceChar).reverse

/-- ASCII lower-casing of one character (`strings.ToLower` on ASCII). -/
def lowerChar (c : Char) : Char :=
  if 'A' ≤ c ∧ c ≤ 'Z' then Char.ofNat (c.toNat + 32) else c

/-- `strings.ToLower(strings.TrimSpace(s))`, the normalization the package
applies to environment variables and to the format string. -/
def goNorm (s : String) : String :=
  String.mk ((trimSpaceList s.data).map lowerChar)

/-- `defaultConfig`: derive the default configuration from the environment.
`ENV`/`GO_ENV` equal to "dev"/"development" or `INFRA` equal to "local"
(all after trimming and lower-casing) select a development posture:
text format and debug level; otherwise json format and info level.
Writer defaults to stdout and `AddSource` to true in both cases. -/
def defaultConfig (e : Env) : Config :=
  let env := goNorm (getenv e.ENV)
  let goEnv := goNorm (getenv e.GO_ENV)
  let infra := goNorm (getenv e.INFRA)
  let dev : Bool :=
    env == "dev" || env == "development" || goEnv == "dev" ||
      goEnv == "development" || infra == "local"
  { Level := if dev then .debug else .info
    Format := if dev then "text" else "json"
    Writer := .stdout
    AddSource := true }

/-- The configuration `Init` resolves: the environment-derived defaults with
the caller's options applied in order (`for _, opt := range opts`). -/
def resolveConfig (e : Env) (opts : List Opt) : Config :=
  opts.foldl applyOpt (defaultConfig e)

/-- Handler flavour selected by `build`'s switch on the normalized format:
"json" selects the JSON handler, "text" and "console" the text handler, and
every other value falls through to the JSON handler. -/
def buildKind (format : String) : HandlerKind :=
  if goNorm format = "json" then .json
  else if goNorm format = "text" ∨ goNorm format = "console" then .text
  else .json

/-- `build`: construct a `*slog.Logger` from a resolved config.  The
returned error is always nil (`return slog.New(h), nil`). -/
def build (c : Config) : Except String SlogLogger :=
  Except.ok { handler := { kind := buildKind c.Format, writer := c.Writer
                           level := c.Level, addSource := c.AddSource }
              attrs := [] }

/-- The discard fallback logger
`slog.New(slog.NewTextHandler(io.Discard, nil))`: text handler, discard
writer, default (info) level, `AddSource` off. -/
def discardLogger : SlogLogger :=
  { handler := { kind := .text, writer := .discard, level := .info
                 addSource := false }
    attrs := [] }

/-- Splitting a string on the path separator, as `strings.Split(s, "/")`
(auxiliary, structural on the character list). -/
def splitSlashAux : List Char → List Char → List String
  | [], cur => [String.mk cur.reverse]
  | c :: cs, cur =>
    if c = '/' then String.mk cur.reverse :: splitSlashAux cs []
    else splitSlashAux cs (c :: cur)

/-- Splitting a string on the path separator (`strings.Split(s, "/")`). -/
def splitSlash (s : String) : List String := splitSlashAux s.data []

/-- Whether a path is rooted (begins with the separator). -/
def rootedOf (s : String) : Bool :=
  match s.data with
  | '/' :: _ => true
  | _ => false

/-- The component-processing loop of `filepath.Clean`: empty and "."
components are dropped, ".." pops the previous component (except at the
root, or when there is nothing left to pop in a relative path), everything
else is kept.  The accumulator holds the kept components in reverse. -/
def cleanComps (rooted : Bool) : List String → List String → List String
  | [], acc => acc
  | c :: cs, acc =>
    if c = "" ∨ c = "." then cleanComps rooted cs acc
    else if c = ".." then
      match acc with
      | [] => if rooted then cleanComps rooted cs [] else cleanComps rooted cs [".."]
      | a :: rest =>
        if a = ".." then cleanComps rooted cs (".." :: a :: rest)
        else cleanComps rooted cs rest
    else cleanComps rooted cs (c :: acc)

/-- Re-joining cleaned components with the separator (`strings.Join`). -/
def pathString : List String → String
  | [] => ""
  | [a] => a
  | a :: rest => a ++ "/" ++ pathString rest

/-- `filepath.Join(a, b)` for non-empty `a` and `b`: concatenate with the
separator and clean, modelled component-wise. -/
def filepathJoin (a b : String) : String :=
  let rooted := rootedOf a
  let comps := (cleanComps rooted (splitSlash a ++ splitSlash b) []).reverse
  if comps = [] then (if rooted then "/" else ".")
  else (if rooted then "/" else "") ++ pathString comps

/-- The package constant `DEFAULT_LOG_FILE_PATH`. -/
def DEFAULT_LOG_FILE_PATH : String := "logs/app.log"

/-- The log-file path resolution shared by `GetFileWriter`, `GetZapLogger`,
`NewTestAppLogger`: the default path, prefixed under `dir` via
`filepath.Join` when `dir` is non-empty. -/
def logFilePath (dir : String) : String :=
  if dir = "" then DEFAULT_LOG_FILE_PATH
  else filepathJoin dir DEFAULT_LOG_FILE_PATH

/-- `GetFileWriter`: the lumberjack rotating file writer over the resolved
path (MaxSize 100, MaxBackups 5, MaxAge 28, Compress on). -/
def GetFileWriter (dir : String) : LogWriter :=
  LogWriter.file (logFilePath dir) 100 5 28 true

/-- The package-level mutable singleton cell: the `sync.Once` flag, the
cached `base` logger, the remembered construction error, plus two
instrumentation counters — how many times the build function has run and
how many diagnostic notices have been printed by the fallback path. -/
structure SingletonState where
  onceDone : Bool
  base : Option SlogLogger
  initErr : Option String
  buildCount : Nat
  notices : Nat
  deriving DecidableEq

/-- The state at process start: nothing constructed. -/
def initState : SingletonState :=
  { onceDone := false, base := none, initErr := none, buildCount := 0, notices := 0 }

/-- The channel `fmt.Println`/`fmt.Printf` write the fallback diagnostic
notice to: the process's standard output. -/
def noticeChannel : Sink := Sink.stdout

/-- `Init`, parameterized by the build function: `once.Do` runs the body —
resolve the config and build — only if it has never run, and `Init`
returns the remembered `initErr`. -/
def initWith (buildFn : Config → Except String SlogLogger) (e : Env)
    (opts : List Opt) (st : SingletonState) : SingletonState × Option String :=
  if st.onceDone then (st, st.initErr)
  else
    match buildFn (resolveConfig e opts) with
    | .ok l =>
      ({ st with onceDone := true, base := some l, initErr := none
                 buildCount := st.buildCount + 1 }, none)
    | .error m =>
      ({ st with onceDone := true, base := none, initErr := some m
                 buildCount := st.buildCount + 1 }, some m)

/-- `GetSlogLogger`, parameterized by the build function: return the cached
`base` when present; otherwise run `Init` with no options, and on error
print a notice and return the discard fallback logger, never the error. -/
def getSlogLoggerWith (buildFn : Config → Except String SlogLogger) (e : Env)
    (st : SingletonState) : SingletonState × Option SlogLogger :=
  match st.base with
  | some b => (st, some b)
  | none =>
    let r := initWith buildFn e [] st
    match r.2 with
    | some _ => ({ r.1 with notices := r.1.notices + 1 }, some discardLogger)
    | none => (r.1, r.1.base)

/-- `GetSlogFileLogger`, parameterized by the build function: cached `base`
if present, otherwise `Init(WithWriter(GetFileWriter(dir)))` with the same
error fallback. -/
def getSlogFileLoggerWith (buildFn : Config → Except String SlogLogger) (e : Env)
    (dir : String) (st : SingletonState) : SingletonState × Option SlogLogger :=
  match st.base with
  | some b => (st, some b)
  | none =>
    let r := initWith buildFn e [Opt.WithWriter (GetFileWriter dir)] st
    match r.2 with
    | some _ => ({ r.1 with notices := r.1.notices + 1 }, some discardLogger)
    | none => (r.1, r.1.base)

/-- `GetSlogMultiLogger`, parameterized by the build function: cached `base`
if present, otherwise `Init(WithWriter(io.MultiWriter(os.Stdout,
GetFileWriter(dir))))` with the same error fallback. -/
def getSlogMultiLoggerWith (buildFn : Config → Except String SlogLogger) (e : Env)
    (dir : String) (st : SingletonState) : SingletonState × Option SlogLogger :=
  match st.base with
  | some b => (st, some b)
  | none =>
    let r := initWith buildFn e
      [Opt.WithWriter (LogWriter.multi LogWriter.stdout (GetFileWriter dir))] st
    match r.2 with
    | some _ => ({ r.1 with notices := r.1.notices + 1 }, some discardLogger)
    | none => (r.1, r.1.base)

/-- The package's `Init` with its real build function. -/
def Init (e : Env) (opts : List Opt) (st : SingletonState) :
    SingletonState × Option String := initWith build e opts st

/-- The package's `GetSlogLogger` with its real build function. -/
def GetSlogLogger (e : Env) (st : SingletonState) :
    SingletonState × Option SlogLogger := getSlogLoggerWith build e st

/-- The package's `GetSlogFileLogger` with its real build function. -/
def GetSlogFileLogger (e : Env) (dir : String) (st : SingletonState) :
    SingletonState × Option SlogLogger := getSlogFileLoggerWith build e dir st

/-- The package's `GetSlogMultiLogger` with its real build function. -/
def GetSlogMultiLogger (e : Env) (dir : String) (st : SingletonState) :
    SingletonState × Option SlogLogger := getSlogMultiLoggerWith build e dir st

/-- One call to an initialization or get-logger entry point, with the
environment snapshot and arguments it is made with. -/
inductive Call
  | init (e : Env) (opts : List Opt)
  | getSlog (e : Env)
  | getSlogFile (e : Env) (dir : String)
  | getSlogMulti (e : Env) (dir : String)
  deriving DecidableEq

/-- State transition of one call (with the package's real build function). -/
def stepCall (c : Call) (st : SingletonState) : SingletonState :=
  match c with
  | .init e opts => (Init e opts st).1
  | .getSlog e => (GetSlogLogger e st).1
  | .getSlogFile e d => (GetSlogFileLogger e d st).1
  | .getSlogMulti e d => (GetSlogMultiLogger e d st).1

/-- The state after a sequence of entry-point calls from process start. -/
def runTrace (tr : List Call) : SingletonState :=
  tr.foldl (fun st c => stepCall c st) initState

/-- The package constant `NO_LOGGER_FOUND`. -/
def NO_LOGGER_FOUND : String := "no logger found in context"

/-- The message of `ErrNoLoggerInContext = errors.New(NO_LOGGER_FOUND)`. -/
def errNoLoggerInContext : String := NO_LOGGER_FOUND

/-- A value implementing the package's `Logger` interface, as it can be
stored in a context: the slog-backed logger of this package, or any other
caller-supplied implementation (identified by a tag). -/
inductive LoggerVal
  | slogL (l : SlogLogger)
  | custom (tag : String)
  deriving DecidableEq

/-- A context key.  `contextLoggerKey` is the package's private typed key
(`loggerContextKey("ContextLoggerKey")`); a plain string key — even with the
same text — is a different key, which models the collision resistance of
Go's typed context keys. -/
inductive CtxKey
  | contextLoggerKey
  | stringKey (s : String)
  deriving DecidableEq

/-- A value stored in a context: either a value of the `Logger` interface
type, or a value of some other type (so the type assertion in
`LoggerFromContext` fails on it). -/
inductive CtxVal
  | loggerV (l : LoggerVal)
  | raw (s : String)
  deriving DecidableEq

/-- A `context.Context` as a chain of `WithValue` nodes, most recent
first. -/
def Ctx := List (CtxKey × CtxVal)

/-- `ctx.Value(k)`: walk the chain from the most recent node and return the
first value stored under `k`. -/
def ctxValue (k : CtxKey) : Ctx → Option CtxVal
  | [] => none
  | (k', v) :: rest => if k' = k then some v else ctxValue k rest

/-- `context.WithValue(ctx, k, v)`: a derived context; the original is
unmodified. -/
def withValue (k : CtxKey) (v : CtxVal) (ctx : Ctx) : Ctx := (k, v) :: ctx

/-- `WithLogger`: a derived context carrying the logger under the private
key. -/
def WithLogger (ctx : Ctx) (l : LoggerVal) : Ctx :=
  withValue CtxKey.contextLoggerKey (CtxVal.loggerV l) ctx

/-- `LoggerFromContext`: the value under the private key if it is present
and passes the `Logger` type assertion, otherwise `ErrNoLoggerInContext`
and no logger. -/
def LoggerFromContext (ctx : Ctx) : Except String LoggerVal :=
  match ctxValue CtxKey.contextLoggerKey ctx with
  | some (CtxVal.loggerV l) => Except.ok l
  | _ => Except.error errNoLoggerInContext

/-- The zap logger as `GetZapLogger` configures it: level and encoder
choice from the raw `INFRA` variable, file sink over the resolved path
(MaxSize 10, MaxBackups 3, MaxAge 28, no compression) teed with a console
sink, and the given name. -/
structure ZapLogger where
  level : Level
  devEncoder : Bool
  fileSink : LogWriter
  filePath : String
  name : String
  deriving DecidableEq

/-- `GetZapLogger`: note the comparison `os.Getenv("INFRA") == "local"` is
on the raw variable, with no trimming or case folding. -/
def GetZapLogger (e : Env) (dir namedAs : String) : ZapLogger :=
  let filePath := logFilePath dir
  let dev : Bool := getenv e.INFRA == "local"
  { level := if dev then .debug else .info
    devEncoder := dev
    fileSink := LogWriter.file filePath 10 3 28 false
    filePath := filePath
    name := namedAs }

/-- `WithAttrs`: `base.With(attrs...)` on the package-level `base`.  When
`base` is nil (no successful `Init` yet) and the attribute list is
non-empty, `Logger.With` dereferences the nil receiver and the process
panics; with no attributes it returns the receiver unchanged. -/
def WithAttrs (base : Option SlogLogger) (attrs : List (String × String)) :
    Except String (Option SlogLogger) :=
  match base with
  | none =>
    if attrs.isEmpty then Except.ok none
    else Except.error "runtime error: invalid memory address or nil pointer dereference"
  | some l => Except.ok (some { l with attrs := l.attrs ++ attrs })

/-- The package constant `DEFAULT_LOG_LEVEL = zapcore.DebugLevel` of the
app-logger file. -/
def DEFAULT_LOG_LEVEL : Level := Level.debug

/-- The `AppLoggerConfig` struct. -/
structure AppLoggerConfig where
  FilePath : String
  Name : String
  Level : Level
  deriving DecidableEq

/-- The `appLogger` value `NewAppLogger` returns. -/
structure AppLogger where
  filePath : String
  level : Level
  name : Option String
  deriving DecidableEq

/-- `NewAppLogger`: level and path come from the config when the config
pointer is non-nil, with defaults otherwise — but after building the core
the function reads `config.Name` outside any nil check, so a nil config
pointer makes the process panic with a nil-pointer dereference. -/
def NewAppLogger (config : Option AppLoggerConfig) : Except String AppLogger :=
  let logLevel := match config with
    | some c => c.Level
    | none => DEFAULT_LOG_LEVEL
  let filePath := match config with
    | some c => if c.FilePath ≠ "" then c.FilePath else DEFAULT_LOG_FILE_PATH
    | none => DEFAULT_LOG_FILE_PATH
  match config with
  | none => Except.error "runtime error: invalid memory address or nil pointer dereference"
  | some c =>
    Except.ok { filePath := filePath, level := logLevel
                name := if c.Name ≠ "" then some c.Name else none }

/-- Associativity of string concatenation (via the underlying lists). -/
theorem strAppend_assoc (a b c : String) : a ++ b ++ c = a ++ (b ++ c) := by
  cases a with
  | mk la =>
    cases b with
    | mk lb =>
      cases c with
      | mk lc =>
        show String.mk (la ++ lb ++ lc) = String.mk (la ++ (lb ++ lc))
        rw [List.append_assoc]

/-- A build function that always fails, to exercise the construction
failure path of the get-logger entry points. -/
def failingBuild (msg : String) : Config → Except String SlogLogger :=
  fun _ => Except.error msg

/-- The reachability invariant of the singleton cell: while `once` has not
run there is no cached logger and the build function has not run; once it
has run, the build function has run exactly once. -/
def SingletonInv (st : SingletonState) : Prop :=
  (st.onceDone = false → st.buildCount = 0 ∧ st.base = none)
  ∧ (st.onceDone = true → st.buildCount = 1)

theorem singletonInv_initState : SingletonInv initState := by
  constructor <;> intro h <;> simp [initState] at h ⊢

theorem singletonInv_step (c : Call) (st : SingletonState) (h : SingletonInv st) :
    SingletonInv (stepCall c st) := by
  obtain ⟨od, b, ie, bc, nt⟩ := st
  obtain ⟨h0, h1⟩ := h
  cases c with
  | init e opts =>
    cases od with
    | false =>
      obtain ⟨hbc, _⟩ := h0 rfl
      simp only at hbc
      subst hbc
      constructor <;> intro hh <;> simp [stepCall, Init, initWith, build] at hh ⊢
    | true => exact ⟨h0, h1⟩
  | getSlog e =>
    cases b with
    | some l =>
      exact ⟨h0, h1⟩
    | none =>
      cases od with
      | false =>
        obtain ⟨hbc, _⟩ := h0 rfl
        simp only at hbc
        subst hbc
        constructor <;> intro hh <;>
          simp [stepCall, GetSlogLogger, getSlogLoggerWith, initWith, build] at hh ⊢
      | true =>
        cases ie with
        | some m =>
          constructor <;> intro hh <;>
            simp [stepCall, GetSlogLogger, getSlogLoggerWith, initWith] at hh ⊢
          exact h1 rfl
        | none =>
          constructor <;> intro hh <;>
            simp [stepCall, GetSlogLogger, getSlogLoggerWith, initWith] at hh ⊢
          exact h1 rfl
  | getSlogFile e d =>
    cases b with
    | some l => exact ⟨h0, h1⟩
    | none =>
      cases od with
      | false =>
        obtain ⟨hbc, _⟩ := h0 rfl
        simp only at hbc
        subst hbc
        constructor <;> intro hh <;>
          simp [stepCall, GetSlogFileLogger, getSlogFileLoggerWith, initWith, build] at hh ⊢
      | true =>
        cases ie with
        | some m =>
          constructor <;> intro hh <;>
            simp [stepCall, GetSlogFileLogger, getSlogFileLoggerWith, initWith] at hh ⊢
          exact h1 rfl
        | none =>
          constructor <;> intro hh <;>
            simp [stepCall, GetSlogFileLogger, getSlogFileLoggerWith, initWith] at hh ⊢
          exact h1 rfl
  | getSlogMulti e d =>
    cases b with
    | some l => exact ⟨h0, h1⟩
    | none =>
      cases od with
      | false =>
        obtain ⟨hbc, _⟩ := h0 rfl
        simp only at hbc
        subst hbc
        constructor <;> intro hh <;>
          simp [stepCall, GetSlogMultiLogger, getSlogMultiLoggerWith, initWith, build] at hh ⊢
      | true =>
        cases ie with
        | some m =>
          constructor <;> intro hh <;>
            simp [stepCall, GetSlogMultiLogger, getSlogMultiLoggerWith, initWith] at hh ⊢
          exact h1 rfl
        | none =>
          constructor <;> intro hh <;>
            simp [stepCall, GetSlogMultiLogger, getSlogMultiLoggerWith, initWith] at hh ⊢
          exact h1 rfl

theorem singletonInv_foldl (tr : List Call) (st : SingletonState) (h : SingletonInv st) :
    SingletonInv (tr.foldl (fun st c => stepCall c st) st) := by
  induction tr generalizing st with
  | nil => exact h
  | cons c cs ih => exact ih _ (singletonInv_step c st h)

theorem singletonInv_runTrace (tr : List Call) : SingletonInv (runTrace tr) :=
  singletonInv_foldl tr initState singletonInv_initState

/-- C1: across every sequence of calls to `Init`, `GetSlogLogger`,
`GetSlogFileLogger` and `GetSlogMultiLogger`, the build function runs at
most once; and once a logger is cached, every later call — with any
environment, directory argument or options — returns that same cached
handle and leaves the singleton state unchanged (the cached logger is
never reconstructed or mutated). -/
theorem build_runs_at_most_once (tr : List Call) :
    (runTrace tr).buildCount ≤ 1
    ∧ ∀ (e : Env) (d : String) (opts : List Opt) (b : SlogLogger),
        (runTrace tr).base = some b →
          GetSlogLogger e (runTrace tr) = (runTrace tr, some b)
          ∧ GetSlogFileLogger e d (runTrace tr) = (runTrace tr, some b)
          ∧ GetSlogMultiLogger e d (runTrace tr) = (runTrace tr, some b)
          ∧ Init e opts (runTrace tr) = (runTrace tr, (runTrace tr).initErr) := by
  have hinv := singletonInv_runTrace tr
  obtain ⟨h0, h1⟩ := hinv
  constructor
  · cases hod : (runTrace tr).onceDone with
    | false => have := (h0 hod).1; omega
    | true => have := h1 hod; omega
  · intro e d opts b hb
    have hod : (runTrace tr).onceDone = true := by
      cases hod : (runTrace tr).onceDone with
      | false =>
        have := (h0 hod).2
        rw [hb] at this
        exact absurd this (by simp)
      | true => rfl
    refine ⟨?_, ?_, ?_, ?_⟩
    · simp [GetSlogLogger, getSlogLoggerWith, hb]
    · simp [GetSlogFileLogger, getSlogFileLoggerWith, hb]
    · simp [GetSlogMultiLogger, getSlogMultiLoggerWith, hb]
    · simp [Init, initWith, hod]

/-- The first logger the package builds in an environment with no
development indicators: JSON handler to stdout at info level with source
annotations. -/
def baseLogger0 : SlogLogger :=
  { handler := { kind := .json, writer := .stdout, level := .info
                 addSource := true }
    attrs := [] }

/-- Witness for `build_runs_at_most_once` at the concrete one-call trace. -/
theorem build_runs_at_most_once_witness :
    (runTrace [Call.getSlog ⟨none, none, none⟩]).buildCount ≤ 1
    ∧ GetSlogLogger ⟨none, none, none⟩ (runTrace [Call.getSlog ⟨none, none, none⟩]) =
        (runTrace [Call.getSlog ⟨none, none, none⟩], some baseLogger0) :=
  ⟨(build_runs_at_most_once [Call.getSlog ⟨none, none, none⟩]).1,
   ((build_runs_at_most_once [Call.getSlog ⟨none, none, none⟩]).2
      ⟨none, none, none⟩ "" [] baseLogger0 (by decide)).1⟩

/-- C3: with all three environment variables unset, configuration
resolution yields structured (json) format and info level; with the mode
variable (`ENV`/`GO_ENV`) denoting development or the locality variable
(`INFRA`) denoting local, it yields human-readable (text) format and debug
level; and the derivation is a pure function of the snapshot. -/
theorem defaultConfig_env_derivation (e : Env) :
    (e.ENV = none → e.GO_ENV = none → e.INFRA = none →
      defaultConfig e =
        { Level := .info, Format := "json", Writer := .stdout, AddSource := true })
    ∧ ((goNorm (getenv e.ENV) = "dev" ∨ goNorm (getenv e.ENV) = "development" ∨
        goNorm (getenv e.GO_ENV) = "dev" ∨ goNorm (getenv e.GO_ENV) = "development") →
      (defaultConfig e).Format = "text" ∧ (defaultConfig e).Level = .debug)
    ∧ (goNorm (getenv e.INFRA) = "local" →
      (defaultConfig e).Format = "text" ∧ (defaultConfig e).Level = .debug)
    ∧ (∀ e₂ : Env, e = e₂ → defaultConfig e = defaultConfig e₂) := by
  refine ⟨?_, ?_, ?_, ?_⟩
  · intro h1 h2 h3
    obtain ⟨E, G, I⟩ := e
    simp only at h1 h2 h3
    subst h1; subst h2; subst h3
    decide
  · intro h
    rcases h with h | h | h | h <;> simp [defaultConfig, h]
  · intro h
    simp [defaultConfig, h]
  · intro e₂ h
    rw [h]

/-- Witness for `defaultConfig_env_derivation` at concrete snapshots. -/
theorem defaultConfig_env_derivation_witness :
    defaultConfig ⟨none, none, none⟩ =
      { Level := .info, Format := "json", Writer := .stdout, AddSource := true }
    ∧ ((defaultConfig ⟨some "development", none, none⟩).Format = "text"
        ∧ (defaultConfig ⟨some "development", none, none⟩).Level = .debug)
    ∧ ((defaultConfig ⟨none, none, some "local"⟩).Format = "text"
        ∧ (defaultConfig ⟨none, none, some "local"⟩).Level = .debug) :=
  ⟨(defaultConfig_env_derivation ⟨none, none, none⟩).1 rfl rfl rfl,
   (defaultConfig_env_derivation ⟨some "development", none, none⟩).2.1
     (Or.inr (Or.inl (by decide))),
   (defaultConfig_env_derivation ⟨none, none, some "local"⟩).2.2.1 (by decide)⟩

/-- C4: a caller-supplied option always overrides the corresponding
environment-derived field, whatever the environment and whatever options
came before it; with no options the resolved configuration is exactly the
environment-derived one; and the environment-derived writer and
source-location flag are the hard-coded fallbacks (stdout, on), with the
level/format fallbacks (info, json) produced on an unset environment. -/
theorem option_precedence (e : Env) (opts : List Opt) (l : Level) (f : String)
    (w : LogWriter) (b : Bool) :
    (resolveConfig e (opts ++ [Opt.WithLevel l])).Level = l
    ∧ (resolveConfig e (opts ++ [Opt.WithFormat f])).Format = f
    ∧ (resolveConfig e (opts ++ [Opt.WithWriter w])).Writer = w
    ∧ (resolveConfig e (opts ++ [Opt.WithAddSource b])).AddSource = b
    ∧ resolveConfig e [] = defaultConfig e
    ∧ (defaultConfig e).Writer = .stdout
    ∧ (defaultConfig e).AddSource = true
    ∧ defaultConfig ⟨none, none, none⟩ =
        { Level := .info, Format := "json", Writer := .stdout, AddSource := true } := by
  refine ⟨?_, ?_, ?_, ?_, rfl, ?_, ?_, by decide⟩
  · simp [resolveConfig, List.foldl_append, applyOpt]
  · simp [resolveConfig, List.foldl_append, applyOpt]
  · simp [resolveConfig, List.foldl_append, applyOpt]
  · simp [resolveConfig, List.foldl_append, applyOpt]
  · simp [defaultConfig]
  · simp [defaultConfig]

/-- Counterexample to C5: the get-logger entry point `GetZapLogger`
consults the `INFRA` environment variable but compares it raw, so the
value " LOCAL " — which trims and case-folds to "local" — does not behave
as "local": it selects info level instead of debug. -/
theorem getZapLogger_env_not_normalized :
    goNorm " LOCAL " = goNorm "local"
    ∧ (GetZapLogger ⟨none, none, some " LOCAL "⟩ "" "svc").level = Level.info
    ∧ (GetZapLogger ⟨none, none, some "local"⟩ "" "svc").level = Level.debug
    ∧ (GetZapLogger ⟨none, none, some " LOCAL "⟩ "" "svc").level ≠
        (GetZapLogger ⟨none, none, some "local"⟩ "" "svc").level := by
  refine ⟨by decide, by decide, by decide, by decide⟩

/-- C5 as amended: the slog configuration resolution (`defaultConfig`,
used by `GetSlogLogger`, `GetSlogFileLogger` and `GetSlogMultiLogger`
through `Init`) compares `ENV`, `GO_ENV` and `INFRA` whitespace-trimmed
and case-insensitively — two values with the same normalization are
interchangeable — while `GetZapLogger` compares `INFRA` exactly. -/
theorem defaultConfig_env_normalized (e : Env) (s t : String)
    (h : goNorm s = goNorm t) :
    defaultConfig { e with ENV := some s } = defaultConfig { e with ENV := some t }
    ∧ defaultConfig { e with GO_ENV := some s } = defaultConfig { e with GO_ENV := some t }
    ∧ defaultConfig { e with INFRA := some s } = defaultConfig { e with INFRA := some t } := by
  refine ⟨?_, ?_, ?_⟩ <;> simp [defaultConfig, getenv, h]

/-- Witness for `defaultConfig_env_normalized`: " DEV " behaves exactly as
"dev". -/
theorem defaultConfig_env_normalized_witness :
    goNorm " DEV " = goNorm "dev"
    ∧ defaultConfig ⟨some " DEV ", none, none⟩ = defaultConfig ⟨some "dev", none, none⟩ :=
  ⟨by decide,
   (defaultConfig_env_normalized ⟨none, none, none⟩ " DEV " "dev" (by decide)).1⟩

/-- C6: for every configuration `build` succeeds — it never returns an
error — and selects the JSON (structured) handler when the normalized
format is "json", the text (human-readable) handler for "text"/"console",
and falls back to the JSON handler on every other format value, threading
the configured writer, level and source flag through unchanged. -/
theorem build_selects_handler (c : Config) :
    ∃ l, build c = Except.ok l
      ∧ l.handler.kind =
          (if goNorm c.Format = "text" ∨ goNorm c.Format = "console"
           then HandlerKind.text else HandlerKind.json)
      ∧ l.handler.writer = c.Writer
      ∧ l.handler.level = c.Level
      ∧ l.handler.addSource = c.AddSource := by
  refine ⟨_, rfl, ?_, rfl, rfl, rfl⟩
  unfold buildKind
  by_cases h1 : goNorm c.Format = "json"
  · rw [if_pos h1]
    have h2 : ¬(goNorm c.Format = "text" ∨ goNorm c.Format = "console") := by
      rw [h1]; decide
    rw [if_neg h2]
  · rw [if_neg h1]

/-- C7: retrieving from the context derived by `WithLogger(ctx, l)` yields
exactly `l` with no error, and the attachment is invisible under every
other key, so the original context is unaffected. -/
theorem withLogger_roundtrip (ctx : Ctx) (l : LoggerVal) :
    LoggerFromContext (WithLogger ctx l) = Except.ok l
    ∧ ∀ k : CtxKey, k ≠ CtxKey.contextLoggerKey →
        ctxValue k (WithLogger ctx l) = ctxValue k ctx := by
  constructor
  · rfl
  · intro k hk
    show (if CtxKey.contextLoggerKey = k then some (CtxVal.loggerV l)
          else ctxValue k ctx) = ctxValue k ctx
    rw [if_neg (fun hh => hk hh.symm)]

/-- Witness for `withLogger_roundtrip` at a concrete context and key. -/
theorem withLogger_roundtrip_witness :
    LoggerFromContext (WithLogger [] (LoggerVal.custom "w")) =
      Except.ok (LoggerVal.custom "w")
    ∧ ctxValue (CtxKey.stringKey "k")
        (WithLogger [(CtxKey.stringKey "k", CtxVal.raw "v")] (LoggerVal.custom "w")) =
      ctxValue (CtxKey.stringKey "k") [(CtxKey.stringKey "k", CtxVal.raw "v")] :=
  ⟨(withLogger_roundtrip [] (LoggerVal.custom "w")).1,
   (withLogger_roundtrip [(CtxKey.stringKey "k", CtxVal.raw "v")]
      (LoggerVal.custom "w")).2 (CtxKey.stringKey "k") (by decide)⟩

/-- C8: `LoggerFromContext` returns a logger exactly when a value of the
`Logger` capability type is stored under the private key — and then it is
that value — and otherwise (key absent, or value of another type) it
returns the designated "no logger found in context" error and no logger. -/
theorem loggerFromContext_exact (ctx : Ctx) :
    (∃ l, ctxValue CtxKey.contextLoggerKey ctx = some (CtxVal.loggerV l)
        ∧ LoggerFromContext ctx = Except.ok l)
    ∨ ((∀ l, ctxValue CtxKey.contextLoggerKey ctx ≠ some (CtxVal.loggerV l))
        ∧ LoggerFromContext ctx = Except.error errNoLoggerInContext) := by
  cases h : ctxValue CtxKey.contextLoggerKey ctx with
  | none =>
    right
    refine ⟨fun l => by simp, ?_⟩
    unfold LoggerFromContext
    rw [h]
  | some v =>
    cases v with
    | loggerV l =>
      left
      refine ⟨l, rfl, ?_⟩
      unfold LoggerFromContext
      rw [h]
    | raw s =>
      right
      refine ⟨fun l => by simp, ?_⟩
      unfold LoggerFromContext
      rw [h]

/-- Counterexample to C2: when construction fails, the diagnostic notice is
not emitted to standard error exactly once — `fmt.Println`/`fmt.Printf`
write it to standard output, and the failure branch runs again on every
later get-logger call, so two calls emit two notices. -/
theorem failure_notice_repeats_on_stdout :
    (getSlogLoggerWith (failingBuild "boom") ⟨none, none, none⟩
        (getSlogLoggerWith (failingBuild "boom") ⟨none, none, none⟩ initState).1).1.notices = 2
    ∧ noticeChannel = Sink.stdout
    ∧ noticeChannel ≠ Sink.stderr := by
  refine ⟨by decide, rfl, by decide⟩

/-- C2 as amended: after a failed construction attempt (the `once` has run,
an error is remembered, no logger is cached), every get-logger entry point
returns the safe discard logger — never the error — on which all four
severity operations write nothing; but the diagnostic notice goes to
standard output and is re-emitted on every such call (the notice counter
grows by one each time), not exactly once to standard error. -/
theorem failed_init_discard_fallback (bf : Config → Except String SlogLogger)
    (st : SingletonState) (e : Env) (d msg : String) (m : String)
    (h1 : st.onceDone = true) (h2 : st.initErr = some m) (h3 : st.base = none) :
    getSlogLoggerWith bf e st =
      ({ st with notices := st.notices + 1 }, some discardLogger)
    ∧ getSlogFileLoggerWith bf e d st =
      ({ st with notices := st.notices + 1 }, some discardLogger)
    ∧ getSlogMultiLoggerWith bf e d st =
      ({ st with notices := st.notices + 1 }, some discardLogger)
    ∧ logAt discardLogger Level.debug msg = []
    ∧ logAt discardLogger Level.info msg = []
    ∧ logAt discardLogger Level.warn msg = []
    ∧ logAt discardLogger Level.error msg = []
    ∧ noticeChannel = Sink.stdout := by
  refine ⟨?_, ?_, ?_,
    by simp [logAt, discardLogger, writeTo, Level.toInt],
    by simp [logAt, discardLogger, writeTo, Level.toInt],
    by simp [logAt, discardLogger, writeTo, Level.toInt],
    by simp [logAt, discardLogger, writeTo, Level.toInt], rfl⟩
  · simp [getSlogLoggerWith, initWith, h1, h2, h3]
  · simp [getSlogFileLoggerWith, initWith, h1, h2, h3]
  · simp [getSlogMultiLoggerWith, initWith, h1, h2, h3]

/-- The singleton state after one failed construction attempt. -/
def failedState : SingletonState :=
  { onceDone := true, base := none, initErr := some "boom"
    buildCount := 1, notices := 1 }

/-- Witness for `failed_init_discard_fallback` at the concrete state left
behind by a failed first call. -/
theorem failed_init_discard_fallback_witness :
    getSlogLoggerWith (failingBuild "boom") ⟨none, none, none⟩ failedState =
      ({ failedState with notices := failedState.notices + 1 }, some discardLogger)
    ∧ logAt discardLogger Level.debug "m" = [] :=
  ⟨(failed_init_discard_fallback (failingBuild "boom") failedState
      ⟨none, none, none⟩ "" "m" "boom" rfl rfl rfl).1,
   (failed_init_discard_fallback (failingBuild "boom") failedState
      ⟨none, none, none⟩ "" "m" "boom" rfl rfl rfl).2.2.2.1⟩

/-- C10 is a code bug: `NewAppLogger` guards its config accesses with a nil
check but then reads `config.Name` outside it, so `NewAppLogger(nil)`
panics with a nil-pointer dereference instead of completing; likewise
`WithAttrs` before any successful `Init` calls `With` on a nil `base`
logger and panics when attributes are supplied.  A non-nil config and the
attribute-free call still complete. -/
theorem nil_config_and_early_withAttrs_panic :
    NewAppLogger none =
      Except.error "runtime error: invalid memory address or nil pointer dereference"
    ∧ WithAttrs none [("service", "api")] =
      Except.error "runtime error: invalid memory address or nil pointer dereference"
    ∧ WithAttrs none [] = Except.ok none
    ∧ NewAppLogger (some { FilePath := "", Name := "", Level := Level.info }) =
        Except.ok { filePath := "logs/app.log", level := Level.info, name := none } :=
  ⟨rfl, rfl, rfl, rfl⟩

/-- A plain component (not empty, ".", or "..") is pushed onto the
accumulator. -/
theorem cleanComps_push (r : Bool) (c : String) (cs acc : List String)
    (h1 : ¬(c = "" ∨ c = ".")) (h2 : ¬c = "..") :
    cleanComps r (c :: cs) acc = cleanComps r cs (c :: acc) := by
  simp only [cleanComps, if_neg h1, if_neg h2]

/-- Processing a concatenation of component lists processes the first list
and then the second from the resulting accumulator. -/
theorem cleanComps_append (r : Bool) (xs ys acc : List String) :
    cleanComps r (xs ++ ys) acc = cleanComps r ys (cleanComps r xs acc) := by
  induction xs generalizing acc with
  | nil => rfl
  | cons c cs ih =>
    rw [List.cons_append]
    by_cases h1 : c = "" ∨ c = "."
    · simp only [cleanComps, if_pos h1]
      exact ih acc
    · by_cases h2 : c = ".."
      · simp only [cleanComps, if_neg h1, if_pos h2]
        cases acc with
        | nil =>
          cases r with
          | false => simp only [Bool.false_eq_true, if_neg]; exact ih [".."]
          | true => simp only [if_pos rfl]; exact ih []
        | cons a rest =>
          by_cases h3 : a = ".."
          · simp only [if_pos h3]; exact ih _
          · simp only [if_neg h3]; exact ih _
      · rw [cleanComps_push r c (cs ++ ys) acc h1 h2,
            cleanComps_push r c cs acc h1 h2]
        exact ih _

/-- Processing the two components of the default log-file path pushes them
both, whatever came before. -/
theorem cleanComps_default_path (r : Bool) (acc : List String) :
    cleanComps r ["logs", "app.log"] acc = "app.log" :: "logs" :: acc := by
  rw [cleanComps_push r "logs" ["app.log"] acc (by decide) (by decide),
      cleanComps_push r "app.log" [] ("logs" :: acc) (by decide) (by decide)]
  rfl

/-- Joining components that end in "logs", "app.log" produces a string
ending in "logs/app.log". -/
theorem pathString_default_suffix (l : List String) :
    ∃ p, pathString (l ++ ["logs", "app.log"]) = p ++ "logs/app.log" := by
  induction l with
  | nil => exact ⟨"", by decide⟩
  | cons a t ih =>
    obtain ⟨p, hp⟩ := ih
    refine ⟨a ++ "/" ++ p, ?_⟩
    have hstep : pathString (a :: (t ++ ["logs", "app.log"])) =
        a ++ "/" ++ pathString (t ++ ["logs", "app.log"]) := by
      cases hrest : t ++ ["logs", "app.log"] with
      | nil => simp at hrest
      | cons b u => rfl
    rw [List.cons_append, hstep, hp, strAppend_assoc (a ++ "/") p "logs/app.log"]

/-- Every non-empty directory argument resolves to a path that ends in the
default log-file path (the cleaning of `filepath.Join` can shorten the
directory part but never touches the trailing default components). -/
theorem filepathJoin_eq (a b : String) :
    filepathJoin a b =
      if (cleanComps (rootedOf a) (splitSlash a ++ splitSlash b) []).reverse = []
      then (if rootedOf a then "/" else ".")
      else (if rootedOf a then "/" else "") ++
        pathString (cleanComps (rootedOf a) (splitSlash a ++ splitSlash b) []).reverse := rfl

theorem logFilePath_suffix (dir : String) (h : dir ≠ "") :
    ∃ p, logFilePath dir = p ++ "logs/app.log" := by
  unfold logFilePath
  rw [if_neg h]
  have hsplit : splitSlash DEFAULT_LOG_FILE_PATH = ["logs", "app.log"] := by decide
  rw [filepathJoin_eq, hsplit, cleanComps_append, cleanComps_default_path]
  have hrev : ("app.log" :: "logs" :: cleanComps (rootedOf dir) (splitSlash dir) []).reverse
      = (cleanComps (rootedOf dir) (splitSlash dir) []).reverse ++ ["logs", "app.log"] := by
    simp
  rw [hrev]
  rw [if_neg (by simp)]
  obtain ⟨p, hp⟩ :=
    pathString_default_suffix (cleanComps (rootedOf dir) (splitSlash dir) []).reverse
  exact ⟨(if rootedOf dir then "/" else "") ++ p,
    by rw [hp, strAppend_assoc]⟩

/-- C9: an empty directory argument resolves the log file to the default
path "logs/app.log" rather than an error, and a non-empty directory
argument prefixes that default path; every file-sink-constructing entry
point (`GetFileWriter`, and through it `GetSlogFileLogger` and
`GetSlogMultiLogger`, as well as `GetZapLogger`) builds its rotating file
sink over this resolved path. -/
theorem file_path_defaulting (dir : String) (e : Env) (n : String) :
    (dir = "" → logFilePath dir = "logs/app.log")
    ∧ (dir ≠ "" → ∃ p, logFilePath dir = p ++ "logs/app.log")
    ∧ GetFileWriter dir = LogWriter.file (logFilePath dir) 100 5 28 true
    ∧ (GetZapLogger e dir n).filePath = logFilePath dir
    ∧ (GetZapLogger e dir n).fileSink = LogWriter.file (logFilePath dir) 10 3 28 false
    ∧ (GetSlogFileLogger e dir initState).2.map (fun l => l.handler.writer) =
        some (GetFileWriter dir)
    ∧ (GetSlogMultiLogger e dir initState).2.map (fun l => l.handler.writer) =
        some (LogWriter.multi LogWriter.stdout (GetFileWriter dir)) := by
  refine ⟨?_, logFilePath_suffix dir, rfl, rfl, rfl, rfl, rfl⟩
  intro hd
  subst hd
  rfl

/-- Witness for `file_path_defaulting` at the empty and a concrete
non-empty directory. -/
theorem file_path_defaulting_witness :
    logFilePath "" = "logs/app.log"
    ∧ ∃ p, logFilePath "tmp" = p ++ "logs/app.log" :=
  ⟨(file_path_defaulting "" ⟨none, none, none⟩ "x").1 rfl,
   (file_path_defaulting "tmp" ⟨none, none, none⟩ "x").2.1 (by decide)⟩
